import Mathlib

/-!
Verification of the ns-3 THz runner adapter in flsim/network.py
(the active implementation, lines 1-284 of the file; the commented-out
historical revisions are not modelled).

Shallow embedding conventions:
* Python floats are modelled as rationals.
* The external subprocess is modelled by explicit inputs: a ProcOutcome
  record for the synchronous run, and a PollEnv record for one call of
  readAsyncResponse, carrying the wall clock reading, the value of the
  poll() call on the process handle, and the result of parsing the
  captured standard output.
* The helper Network._parse_last_json scans raw stdout text for the last
  JSON object line; its outcome is modelled abstractly as an
  Option (List Entry): none when it raises (no JSON summary found),
  some entries for the clientResults array of the decoded object (an
  absent clientResults key is the same as some []).
* Python dictionaries keyed by client id are modelled as association
  lists with the insert-or-replace operation dictInsert, which mirrors
  insertion-order semantics of dict assignment.
-/

/-- One record of the clientResults array emitted by the simulator
(lines 140-150 and 229-241 of network.py read the fields id, rxBytes and
the completion-time fields).  Each field is optional, matching dict.get
access with a default. -/
structure Entry where
  id : Option Int
  rxBytes : Option ℚ
  doneAt : Option ℚ
  endTime : Option ℚ
  roundTime : Option ℚ
deriving DecidableEq

/-- Python truthiness of the entry dictionary: a dict is truthy iff it is
non-empty, i.e. iff at least one of the modelled fields is present. -/
def Entry.truthy (e : Entry) : Bool :=
  e.id.isSome || e.rxBytes.isSome || e.doneAt.isSome ||
    e.endTime.isSome || e.roundTime.isSome

/-- Embeds int(e.get('id', -1)) from lines 141, 229 and 261. -/
def Entry.getId (e : Entry) : Int :=
  e.id.getD (-1)

/-- Embeds float(e.get('rxBytes', 0.0)) from lines 144, 236 and 269. -/
def Entry.getRx (e : Entry) : ℚ :=
  e.rxBytes.getD 0

/-- Embeds Network._extract_times (lines 104-113): the completion-time
field is taken from doneAt, then endTime, then roundTime, falling back to
the configured simulated duration. -/
def extractTimes (e : Entry) (defaultSimTime : ℚ) : ℚ :=
  match e.doneAt with
  | some v => v
  | none =>
    match e.endTime with
    | some v => v
    | none =>
      match e.roundTime with
      | some v => v
      | none => defaultSimTime

/-- Division that can only be written with a proof that the divisor is
non-zero; used to embed the guarded throughput expression so that the
absence of a division-by-zero is visible in the definition itself. -/
def safeDiv (a b : ℚ) (h : b ≠ 0) : ℚ :=
  a / b

/-- Embeds the throughput expression of lines 146, 238 and 271:
thr = (rx_bytes / done_at) if done_at and done_at > 0 else 0.0.
The Python condition is the conjunction of float truthiness (done_at is
not 0) and the comparison done_at > 0. -/
def pyThroughput (rxBytes doneAt : ℚ) : ℚ :=
  if h : doneAt ≠ 0 ∧ doneAt > 0 then safeDiv rxBytes doneAt h.1 else 0

/-- Embeds the bitmap test of lines 119 and 160:
len(array) == self.num_clients and all(x in (0, 1) for x in array). -/
def isBitmap (numClients : Nat) (array : List Int) : Bool :=
  array.length == numClients && array.all (fun x => x == 0 || x == 1)

/-- Embeds the Python comprehension of lines 120 and 161,
enumerating a flag list from index i and keeping the indices of the
truthy (non-zero) flags. -/
def enumFilterIds : Nat → List Int → List Int
  | _, [] => []
  | i, flag :: rest =>
    if flag != 0 then (i : Int) :: enumFilterIds (i + 1) rest
    else enumFilterIds (i + 1) rest

/-- Embeds the active-id normalization shared by sendRequest (lines
118-122) and sendAsyncRequest (lines 159-163): a 0/1 array of length
num_clients is read as a bitmap, anything else is taken as the explicit
id list (parse_clients on raw ids is list(map(int, clients)), the
identity here). -/
def normalizeActive (numClients : Nat) (array : List Int) : List Int :=
  if isBitmap numClients array then enumFilterIds 0 array else array

/-- Modelled from the spec: the bitmap presentation of an active set of
logical ids, one 0/1 flag per logical id in ascending id order (spec
section 3, ActiveSet).  This is the spec-side encoding used to compare
the two input forms of the same active set. -/
def bitmapOf (numClients : Nat) (ids : List Int) : List Int :=
  (List.range numClients).map (fun (i : Nat) => if (i : Int) ∈ ids then 1 else 0)

/-- The sync per-client metric dict built at lines 147-150:
roundTime and throughput. -/
structure SyncMetric where
  roundTime : ℚ
  throughput : ℚ
deriving DecidableEq

/-- The async per-client metric dict built at lines 242-248 and 272-278:
startTime, endTime and throughput. -/
structure AsyncMetric where
  startTime : ℚ
  endTime : ℚ
  throughput : ℚ
deriving DecidableEq

/-- Sync metric computed from one parsed entry (lines 144-150). -/
def entrySyncMetric (simTime : ℚ) (e : Entry) : SyncMetric :=
  ⟨extractTimes e simTime, pyThroughput e.getRx (extractTimes e simTime)⟩

/-- Async metric computed from one parsed entry (lines 236-238 with
242-248, and 269-278). -/
def entryAsyncMetric (simTime : ℚ) (e : Entry) : AsyncMetric :=
  ⟨0, extractTimes e simTime, pyThroughput e.getRx (extractTimes e simTime)⟩

/-- The synthesized metric of the timeout path (lines 239-248):
startTime 0, endTime the configured simulated duration, throughput 0. -/
def synthMetric (simTime : ℚ) : AsyncMetric :=
  ⟨0, simTime, 0⟩

/-- Python dict assignment d[k] = v on an insertion-ordered dictionary:
an existing key keeps its position and gets the new value, a new key is
appended at the end. -/
def dictInsert (k : Int) (v : SyncMetric) :
    List (Int × SyncMetric) → List (Int × SyncMetric)
  | [] => [(k, v)]
  | (k', v') :: rest =>
    if k' = k then (k, v) :: rest else (k', v') :: dictInsert k v rest

/-- Keys of an association-list dictionary, in insertion order. -/
def dictKeys (l : List (Int × SyncMetric)) : List Int :=
  l.map Prod.fst

/-- Embeds the dict comprehension of lines 229 and 261:
results = dict of int(e.get('id', -1)) to e; a later entry with the same
id overwrites an earlier one, so lookup returns the last match. -/
def resultsLookup (entries : List Entry) (k : Int) : Option Entry :=
  (entries.filter (fun e => e.getId == k)).getLast?

/-- Outcome of the finished synchronous subprocess run, as consumed by
sendRequest: the exit status, the two captured streams, and the result
of Network._parse_last_json on the captured stdout (none when it raises
because no JSON summary line exists). -/
structure ProcOutcome where
  returncode : Int
  stdoutText : String
  stderrText : String
  parsed : Option (List Entry)
deriving DecidableEq

/-- Result of one sendRequest call.  The empty constructor marks the
early return at lines 124-125, taken before the subprocess call, so no
process is spawned on that path; runError carries the two captured
streams interpolated into the RuntimeError message of line 134;
parseError is the RuntimeError of line 101. -/
inductive SyncOutcome where
  | empty
  | runError (stdoutText stderrText : String)
  | parseError
  | ok (out : List (Int × SyncMetric))
deriving DecidableEq

/-- The result-building loop of lines 138-151: fold over the parsed
clientResults entries, keeping entries whose local id is a key of
id_map (0 up to the active count) and keying the metric by the real id
active_ids[local]. -/
def buildSyncOut (simTime : ℚ) (activeIds : List Int)
    (entries : List Entry) : List (Int × SyncMetric) :=
  entries.foldl
    (fun out e =>
      if 0 ≤ e.getId ∧ e.getId < (activeIds.length : Int) then
        dictInsert (activeIds.getD e.getId.toNat 0) (entrySyncMetric simTime e) out
      else out)
    []

/-- Embeds Network.sendRequest (lines 117-151).  The process run is an
explicit input; the branch structure mirrors the source: normalize the
array, short-circuit on an empty active set, fail on a non-zero exit
status, fail if no JSON summary was found, else build the result dict. -/
def sendRequest (numClients : Nat) (simTime : ℚ) (array : List Int)
    (outcome : ProcOutcome) : SyncOutcome :=
  let activeIds := normalizeActive numClients array
  if activeIds.isEmpty then .empty
  else if outcome.returncode ≠ 0 then
    .runError outcome.stdoutText outcome.stderrText
  else
    match outcome.parsed with
    | none => .parseError
    | some entries => .ok (buildSyncOut simTime activeIds entries)

/-- Mutable async state of the Network object (lines 54-58): the
optional process handle, the stored active-id list, the pending delivery
queue of single-client dicts, and the optional wall-clock deadline. -/
structure NetState where
  proc : Option Unit
  asyncIds : List Int
  asyncQueue : List (Int × AsyncMetric)
  deadline : Option ℚ
deriving DecidableEq

/-- Embeds Network.sendAsyncRequest (lines 155-185).  An error value is
the RuntimeError of line 157.  On success the state records the
normalized ids, a cleared queue and a cleared deadline (lines 165-167);
an empty active set leaves the handle empty (lines 169-173), otherwise
the handle is taken and the deadline set to
now + max(10.0, 4.0 * sim_time) (lines 180-185). -/
def sendAsyncRequest (numClients : Nat) (simTime : ℚ) (now : ℚ)
    (s : NetState) (array : List Int) : Except String NetState :=
  if s.proc.isSome then .error "Async request already in progress."
  else
    let activeIds := normalizeActive numClients array
    if activeIds.isEmpty then
      .ok ⟨none, activeIds, [], none⟩
    else
      .ok ⟨some (), activeIds, [], some (now + max 10 (4 * simTime))⟩

/-- Environment of one readAsyncResponse call: the wall clock reading of
time.time(), the value of self._proc.poll() (none while the process is
alive, some exit status once it has exited), and the result of
Network._parse_last_json on the captured stdout (none when no JSON
summary line exists). -/
structure PollEnv where
  now : ℚ
  exitCode : Option Int
  parsed : Option (List Entry)
deriving DecidableEq

/-- Result of one readAsyncResponse call: the end sentinel string,
the in-progress marker (the empty dict of line 251), one popped
single-client record, or the RuntimeError raised by _parse_last_json at
line 258 on the normal-exit path. -/
inductive PollResult where
  | endSentinel
  | inProgress
  | record (r : Int × AsyncMetric)
  | parseError
deriving DecidableEq

/-- The timeout-path queue building loop of lines 228-248: one record
per stored active id, in order; a local index with a truthy parsed entry
gets the parsed metric, any other local index gets the synthesized
metric. -/
def timeoutRecords (simTime : ℚ) (asyncIds : List Int)
    (entries : List Entry) : List (Int × AsyncMetric) :=
  (List.range asyncIds.length).map
    (fun li =>
      match resultsLookup entries (Int.ofNat li) with
      | some e =>
        if e.truthy then (asyncIds.getD li 0, entryAsyncMetric simTime e)
        else (asyncIds.getD li 0, synthMetric simTime)
      | none => (asyncIds.getD li 0, synthMetric simTime))

/-- The normal-exit queue building loop of lines 260-278: one record per
stored active id whose local index has a truthy parsed entry; the other
local indices are skipped by the continue of line 266. -/
def normalRecords (simTime : ℚ) (asyncIds : List Int)
    (entries : List Entry) : List (Int × AsyncMetric) :=
  (List.range asyncIds.length).filterMap
    (fun li =>
      match resultsLookup entries (Int.ofNat li) with
      | some e =>
        if e.truthy then some (asyncIds.getD li 0, entryAsyncMetric simTime e)
        else none
      | none => none)

/-- The serve step of lines 280-284: pop and return the head of the
queue if any, else return the end sentinel. -/
def serveQueue (s : NetState) : PollResult × NetState :=
  match s.asyncQueue with
  | r :: rest => (.record r, { s with asyncQueue := rest })
  | [] => (.endSentinel, s)

/-- Embeds Network.readAsyncResponse (lines 187-284).  Branches in
source order: the nothing-ever-started check of line 198, the
still-running check of line 202 with the deadline guard of line 204
(on timeout the process is reaped, the parse failure of lines 223-226 is
degraded to an empty entry list, and the queue is extended by the
timeout records before falling to the serve step), the finished check of
line 254 (a missing JSON summary raises after the handle was already
released), and the serve step of lines 280-284. -/
def readAsyncResponse (simTime : ℚ) (env : PollEnv) (s : NetState) :
    PollResult × NetState :=
  if s.proc = none ∧ s.asyncQueue = [] then (.endSentinel, s)
  else if s.proc ≠ none ∧ env.exitCode = none then
    match s.deadline with
    | some d =>
      if env.now > d then
        serveQueue
          { s with
            proc := none
            asyncQueue :=
              s.asyncQueue ++
                timeoutRecords simTime s.asyncIds (env.parsed.getD []) }
      else (.inProgress, s)
    | none => (.inProgress, s)
  else if s.proc ≠ none then
    match env.parsed with
    | none => (.parseError, { s with proc := none })
    | some entries =>
      serveQueue
        { s with
          proc := none
          asyncQueue := s.asyncQueue ++ normalRecords simTime s.asyncIds entries }
  else serveQueue s

/-- Repeated polling with a fixed environment: the list of results of
the first k polls together with the final state. -/
def pollTrace (simTime : ℚ) (env : PollEnv) (s : NetState) :
    Nat → List PollResult × NetState
  | 0 => ([], s)
  | k + 1 =>
    let p := readAsyncResponse simTime env s
    let rest := pollTrace simTime env p.2 k
    (p.1 :: rest.1, rest.2)

/-- Draining loop: poll with a fixed environment until the end sentinel
appears (at most fuel polls), collecting every result including the
final sentinel. -/
def drainFrom (simTime : ℚ) (env : PollEnv) : NetState → Nat → List PollResult
  | _, 0 => []
  | s, fuel + 1 =>
    let p := readAsyncResponse simTime env s
    if p.1 = .endSentinel then [PollResult.endSentinel]
    else p.1 :: drainFrom simTime env p.2 fuel

/-- Whether a poll result is a data record. -/
def PollResult.isRecord : PollResult → Bool
  | .record _ => true
  | _ => false

/-! Helper lemmas shared by several claims. -/

/-- The dite guard of pyThroughput is equivalent to positivity of the
completion time. -/
lemma pyThroughput_eq (a b : ℚ) :
    pyThroughput a b = if 0 < b then a / b else 0 := by
  unfold pyThroughput safeDiv
  split_ifs with h1 h2 h3
  · rfl
  · exact absurd h1.2 h2
  · exact absurd ⟨ne_of_gt h3, h3⟩ h1
  · rfl

/-- One poll step on the timeout path: process held, still alive,
deadline set and elapsed. -/
lemma readAsync_timeout (simTime : ℚ) (env : PollEnv) (s : NetState) (u : Unit) (d : ℚ)
    (hp : s.proc = some u) (hx : env.exitCode = none) (hd : s.deadline = some d)
    (hn : env.now > d) :
    readAsyncResponse simTime env s =
      serveQueue
        { s with
          proc := none
          asyncQueue :=
            s.asyncQueue ++ timeoutRecords simTime s.asyncIds (env.parsed.getD []) } := by
  simp [readAsyncResponse, hp, hx, hd, hn]

/-- One poll step on the normal-exit path: process held, exited, JSON
summary parsed. -/
lemma readAsync_normal (simTime : ℚ) (env : PollEnv) (s : NetState) (u : Unit) (c : Int)
    (entries : List Entry) (hp : s.proc = some u) (hx : env.exitCode = some c)
    (hpd : env.parsed = some entries) :
    readAsyncResponse simTime env s =
      serveQueue
        { s with
          proc := none
          asyncQueue := s.asyncQueue ++ normalRecords simTime s.asyncIds entries } := by
  simp [readAsyncResponse, hp, hx, hpd]

/-- One poll step once the process handle is released: only the serve
step remains. -/
lemma readAsync_released (simTime : ℚ) (env : PollEnv) (s : NetState)
    (hp : s.proc = none) :
    readAsyncResponse simTime env s = serveQueue s := by
  cases hq : s.asyncQueue with
  | nil => simp [readAsyncResponse, serveQueue, hp, hq]
  | cons r rest => simp [readAsyncResponse, serveQueue, hp, hq]

/-- Draining a released state with queue q yields the queued records in
FIFO order and then the end sentinel, given enough fuel. -/
lemma drainFrom_queue (simTime : ℚ) (env : PollEnv) :
    ∀ (q : List (Int × AsyncMetric)) (s : NetState) (fuel : Nat),
      s.proc = none → s.asyncQueue = q → q.length + 1 ≤ fuel →
      drainFrom simTime env s fuel =
        q.map PollResult.record ++ [PollResult.endSentinel] := by
  intro q
  induction q with
  | nil =>
    intro s fuel hp hq hf
    obtain ⟨f, rfl⟩ : ∃ f, fuel = f + 1 := ⟨fuel - 1, by omega⟩
    have hstep : readAsyncResponse simTime env s = (.endSentinel, s) := by
      simp [readAsyncResponse, hp, hq]
    simp [drainFrom, hstep]
  | cons r rest ih =>
    intro s fuel hp hq hf
    obtain ⟨f, rfl⟩ : ∃ f, fuel = f + 1 := ⟨fuel - 1, by omega⟩
    have hstep : readAsyncResponse simTime env s =
        (.record r, { s with asyncQueue := rest }) := by
      simp [readAsyncResponse, serveQueue, hp, hq]
    have hunf : drainFrom simTime env s (f + 1) =
        PollResult.record r :: drainFrom simTime env { s with asyncQueue := rest } f := by
      simp [drainFrom, hstep]
    rw [hunf, ih { s with asyncQueue := rest } f (by simp [hp]) (by simp) (by
      simp only [List.length_cons] at hf
      omega)]
    simp

/-- Draining from a state whose first poll builds and starts serving the
record list built yields exactly those records and then the sentinel. -/
lemma drain_build_step (simTime : ℚ) (env : PollEnv) (s : NetState)
    (built : List (Int × AsyncMetric))
    (hstep : readAsyncResponse simTime env s =
      serveQueue ⟨none, s.asyncIds, built, s.deadline⟩) :
    drainFrom simTime env s (built.length + 1) =
      built.map PollResult.record ++ [PollResult.endSentinel] := by
  cases built with
  | nil =>
    have hstep' : readAsyncResponse simTime env s =
        (.endSentinel, ⟨none, s.asyncIds, [], s.deadline⟩) := by
      simpa [serveQueue] using hstep
    simp [drainFrom, hstep']
  | cons r rest =>
    have hstep' : readAsyncResponse simTime env s =
        (.record r, ⟨none, s.asyncIds, rest, s.deadline⟩) := by
      simpa [serveQueue] using hstep
    have hunf : drainFrom simTime env s (rest.length + 1 + 1) =
        PollResult.record r ::
          drainFrom simTime env ⟨none, s.asyncIds, rest, s.deadline⟩ (rest.length + 1) := by
      simp [drainFrom, hstep']
    rw [List.length_cons, hunf,
      drainFrom_queue simTime env rest ⟨none, s.asyncIds, rest, s.deadline⟩
        (rest.length + 1) rfl rfl (le_refl _)]
    simp

/-- The timeout path always builds one record per stored active id. -/
lemma timeoutRecords_length (simTime : ℚ) (asyncIds : List Int) (entries : List Entry) :
    (timeoutRecords simTime asyncIds entries).length = asyncIds.length := by
  simp [timeoutRecords]

/-! Claim C8. -/

/-- C8 (confirmed): on every parsed result entry, on the sync and async
paths alike, throughput equals rxBytes divided by the completion time
exactly when the completion time is positive, and is 0 otherwise; the
guarded definition performs the division only with a positive (hence
non-zero) divisor, so a zero or negative completion time never reaches a
division. -/
theorem c8_throughput_guard (rxBytes doneAt simTime : ℚ) (e : Entry) :
    pyThroughput rxBytes doneAt = (if 0 < doneAt then rxBytes / doneAt else 0) ∧
    (entrySyncMetric simTime e).throughput =
      (if 0 < extractTimes e simTime then e.getRx / extractTimes e simTime else 0) ∧
    (entryAsyncMetric simTime e).throughput =
      (if 0 < extractTimes e simTime then e.getRx / extractTimes e simTime else 0) := by
  refine ⟨pyThroughput_eq rxBytes doneAt, ?_, ?_⟩
  · exact pyThroughput_eq e.getRx (extractTimes e simTime)
  · exact pyThroughput_eq e.getRx (extractTimes e simTime)

/-! Claim C7. -/

/-- C7 (confirmed): while the process handle is held, the process is
alive, and no set deadline has elapsed, any number of repeated polls
each return the in-progress marker and leave the state unchanged; no end
sentinel and no data record is returned. -/
theorem c7_alive_in_progress (simTime : ℚ) (env : PollEnv) (s : NetState)
    (u : Unit) (k : Nat) (hp : s.proc = some u) (hx : env.exitCode = none)
    (hd : ∀ d, s.deadline = some d → ¬ env.now > d) :
    pollTrace simTime env s k = (List.replicate k PollResult.inProgress, s) := by
  have hstep : readAsyncResponse simTime env s = (.inProgress, s) := by
    cases hdl : s.deadline with
    | none => simp [readAsyncResponse, hp, hx, hdl]
    | some d => simp [readAsyncResponse, hp, hx, hdl, hd d hdl]
  induction k with
  | zero => rfl
  | succ n ih => simp [pollTrace, hstep, ih, List.replicate_succ]

/-- Witness for C7 at a concrete state: three polls with the clock at 3
and the deadline at 10 all return the in-progress marker. -/
theorem c7_witness :
    pollTrace 1 ⟨3, none, none⟩ ⟨some (), [5], [], some 10⟩ 3 =
      (List.replicate 3 PollResult.inProgress, ⟨some (), [5], [], some 10⟩) := by
  refine c7_alive_in_progress 1 ⟨3, none, none⟩ ⟨some (), [5], [], some 10⟩ () 3 rfl rfl ?_
  intro d hd
  cases hd
  norm_num

/-! Claim C2. -/

/-- C2 (corrected): starting an async round fails with the usage error
exactly when the process handle is still held; in the draining state,
where the handle was already released but undelivered records remain
queued, it does not fail (the claim asserted a failure for every
non-idle state, including draining). -/
theorem c2_usage_error_iff_proc_held (numClients : Nat) (simTime now : ℚ)
    (s : NetState) (array : List Int) :
    (∃ msg, sendAsyncRequest numClients simTime now s array = .error msg) ↔
      s.proc.isSome = true := by
  cases hsp : s.proc.isSome with
  | true => simp [sendAsyncRequest, hsp]
  | false =>
    simp only [sendAsyncRequest, hsp, Bool.false_eq_true, if_false]
    constructor
    · rintro ⟨msg, h⟩
      split at h <;> simp at h
    · intro h
      cases h

/-- Counterexample for C2 as stated: in the draining state (handle
released, one undelivered record still queued) sendAsyncRequest
succeeds and starts a new round instead of raising the usage error. -/
theorem c2_counterexample :
    sendAsyncRequest 4 1 0 ⟨none, [7], [(7, ⟨0, 1, 0⟩)], none⟩ [1, 2] =
      .ok ⟨some (), [1, 2], [], some (0 + max 10 (4 * 1))⟩ := by
  simp [sendAsyncRequest, normalizeActive, isBitmap]

/-! Claim C10. -/

/-- C10 (confirmed): when the process handle is released but the queue
still holds undelivered records, sendAsyncRequest succeeds and resets
the stored active ids, the delivery queue and the deadline, silently
discarding the undelivered records. -/
theorem c10_draining_discard (numClients : Nat) (simTime now : ℚ) (s : NetState)
    (array : List Int) (hp : s.proc = none) (hq : s.asyncQueue ≠ []) :
    ∃ s' : NetState,
      sendAsyncRequest numClients simTime now s array = .ok s' ∧
      s'.asyncIds = normalizeActive numClients array ∧
      s'.asyncQueue = [] ∧
      s'.deadline = (if (normalizeActive numClients array).isEmpty then none
        else some (now + max 10 (4 * simTime))) ∧
      s'.proc = (if (normalizeActive numClients array).isEmpty then none else some ()) := by
  by_cases he : (normalizeActive numClients array).isEmpty = true
  · exact ⟨⟨none, normalizeActive numClients array, [], none⟩,
      by simp [sendAsyncRequest, hp, he], rfl, rfl, by simp [he], by simp [he]⟩
  · exact ⟨⟨some (), normalizeActive numClients array, [],
      some (now + max 10 (4 * simTime))⟩,
      by simp [sendAsyncRequest, hp, he], rfl, rfl, by simp [he], by simp [he]⟩

/-- Witness for C10 at a concrete draining state with one leftover
record and a fresh two-client round. -/
theorem c10_witness :
    ∃ s' : NetState,
      sendAsyncRequest 3 1 0 ⟨none, [9], [(9, ⟨0, 1, 0⟩)], none⟩ [1, 2] = .ok s' ∧
      s'.asyncIds = normalizeActive 3 [1, 2] ∧
      s'.asyncQueue = [] ∧
      s'.deadline = (if (normalizeActive 3 [1, 2]).isEmpty then none
        else some (0 + max 10 (4 * 1))) ∧
      s'.proc = (if (normalizeActive 3 [1, 2]).isEmpty then none else some ()) := by
  refine c10_draining_discard 3 1 0 ⟨none, [9], [(9, ⟨0, 1, 0⟩)], none⟩ [1, 2] rfl ?_
  simp

/-! Claim C9. -/

/-- An all-zero flag list enumerates to no active ids. -/
lemma enumFilterIds_all_zero :
    ∀ (i : Nat) (xs : List Int), (∀ x ∈ xs, x = 0) → enumFilterIds i xs = [] := by
  intro i xs
  induction xs generalizing i with
  | nil => intro _; rfl
  | cons a t ih =>
    intro h
    have ha : a = 0 := h a (by simp)
    simp [enumFilterIds, ha]
    exact ih (i + 1) (fun x hx => h x (by simp [hx]))

/-- An empty list, or an all-zero bitmap of the configured length,
normalizes to the empty active set. -/
lemma normalizeActive_eq_nil (numClients : Nat) (array : List Int)
    (ha : array = [] ∨ (array.length = numClients ∧ ∀ x ∈ array, x = 0)) :
    normalizeActive numClients array = [] := by
  rcases ha with rfl | ⟨hlen, hzero⟩
  · unfold normalizeActive
    split
    · rfl
    · rfl
  · have hbm : isBitmap numClients array = true := by
      simp only [isBitmap, Bool.and_eq_true, beq_iff_eq, List.all_eq_true]
      exact ⟨hlen, fun x hx => by simp [hzero x hx]⟩
    simp only [normalizeActive, hbm, if_true]
    exact enumFilterIds_all_zero 0 array hzero

/-- C9 (confirmed): for an empty activeClients input (empty list or
all-zero bitmap of the configured length), sendRequest returns the empty
mapping before touching the process (its result does not depend on the
process outcome at all), sendAsyncRequest records an empty session with
no process handle taken, and the subsequent poll on that session returns
the end sentinel. -/
theorem c9_empty_short_circuit (numClients : Nat) (simTime now : ℚ) (array : List Int)
    (s : NetState) (o1 o2 : ProcOutcome) (env : PollEnv)
    (ha : array = [] ∨ (array.length = numClients ∧ ∀ x ∈ array, x = 0))
    (hp : s.proc = none) :
    sendRequest numClients simTime array o1 = .empty ∧
    sendRequest numClients simTime array o1 = sendRequest numClients simTime array o2 ∧
    sendAsyncRequest numClients simTime now s array = .ok ⟨none, [], [], none⟩ ∧
    readAsyncResponse simTime env ⟨none, [], [], none⟩ =
      (.endSentinel, ⟨none, [], [], none⟩) := by
  have hnil := normalizeActive_eq_nil numClients array ha
  have hsync : sendRequest numClients simTime array o1 = .empty := by
    simp [sendRequest, hnil]
  refine ⟨hsync, ?_, ?_, ?_⟩
  · rw [hsync]
    simp [sendRequest, hnil]
  · simp [sendAsyncRequest, hp, hnil]
  · simp [readAsyncResponse]

/-- Witness for C9 at the all-zero bitmap of length 2, with two
different process outcomes. -/
theorem c9_witness :
    sendRequest 2 1 [0, 0] ⟨0, "", "", none⟩ = .empty ∧
    sendRequest 2 1 [0, 0] ⟨0, "", "", none⟩ = sendRequest 2 1 [0, 0] ⟨1, "a", "b", none⟩ ∧
    sendAsyncRequest 2 1 0 ⟨none, [], [], none⟩ [0, 0] = .ok ⟨none, [], [], none⟩ ∧
    readAsyncResponse 1 ⟨0, none, none⟩ ⟨none, [], [], none⟩ =
      (.endSentinel, ⟨none, [], [], none⟩) :=
  c9_empty_short_circuit 2 1 0 [0, 0] ⟨none, [], [], none⟩ ⟨0, "", "", none⟩
    ⟨1, "a", "b", none⟩ ⟨0, none, none⟩ (Or.inr ⟨rfl, by decide⟩) rfl

/-! Claim C5. -/

/-- C5 (confirmed): on the timeout path the queue is extended by exactly
one record per stored active id, in stored order, each keyed by the
logical id at that position; every local index with no matching parsed
entry receives the synthesized metric with startTime 0, endTime the
configured simulated duration, and throughput 0. -/
theorem c5_timeout_synthesis (simTime : ℚ) (env : PollEnv) (s : NetState) (u : Unit)
    (d : ℚ) (hp : s.proc = some u) (hx : env.exitCode = none) (hd : s.deadline = some d)
    (hn : env.now > d) :
    (timeoutRecords simTime s.asyncIds (env.parsed.getD [])).length =
      s.asyncIds.length ∧
    (∀ i, i < s.asyncIds.length →
      ((timeoutRecords simTime s.asyncIds (env.parsed.getD [])).getD i
        (0, synthMetric simTime)).1 = s.asyncIds.getD i 0) ∧
    (∀ i, i < s.asyncIds.length →
      resultsLookup (env.parsed.getD []) (Int.ofNat i) = none →
      (timeoutRecords simTime s.asyncIds (env.parsed.getD [])).getD i
        (0, synthMetric simTime) = (s.asyncIds.getD i 0, synthMetric simTime)) ∧
    readAsyncResponse simTime env s =
      serveQueue
        { s with
          proc := none
          asyncQueue :=
            s.asyncQueue ++ timeoutRecords simTime s.asyncIds (env.parsed.getD []) } := by
  refine ⟨timeoutRecords_length _ _ _, ?_, ?_, readAsync_timeout simTime env s u d hp hx hd hn⟩
  · intro i hi
    have hlen : i < (timeoutRecords simTime s.asyncIds (env.parsed.getD [])).length := by
      rw [timeoutRecords_length]; exact hi
    rw [List.getD_eq_getElem _ _ hlen]
    simp only [timeoutRecords, List.getElem_map, List.getElem_range]
    cases resultsLookup (env.parsed.getD []) (Int.ofNat i) with
    | none => rfl
    | some e => by_cases ht : e.truthy = true <;> simp [ht]
  · intro i hi hnone
    have hlen : i < (timeoutRecords simTime s.asyncIds (env.parsed.getD [])).length := by
      rw [timeoutRecords_length]; exact hi
    rw [List.getD_eq_getElem _ _ hlen]
    simp only [timeoutRecords, List.getElem_map, List.getElem_range, hnone]

/-- Witness for C5: two active clients, deadline 10, clock 11, no
parseable output; both records are synthesized, and the poll serves the
queue built from them. -/
theorem c5_witness :
    (timeoutRecords 1 [3, 7] []).length = 2 ∧
    (timeoutRecords 1 [3, 7] []).getD 1 (0, synthMetric 1) = (7, synthMetric 1) ∧
    readAsyncResponse 1 ⟨11, none, none⟩ ⟨some (), [3, 7], [], some 10⟩ =
      serveQueue ⟨none, [3, 7], timeoutRecords 1 [3, 7] [], some 10⟩ := by
  have h := c5_timeout_synthesis 1 ⟨11, none, none⟩ ⟨some (), [3, 7], [], some 10⟩ () 10
    rfl rfl rfl (by norm_num)
  exact ⟨h.1, h.2.2.1 1 (by norm_num) rfl, h.2.2.2⟩

/-! Claim C3. -/

/-- C3 (corrected): a non-zero exit status is fatal on the synchronous
run, surfaced with both captured streams; on an async completion,
however, the exit status is ignored entirely: the poll result is the
same for every exited status value (the claim asserted that a non-zero
status is reported as an error there too). -/
theorem c3_exit_status (numClients : Nat) (simTime : ℚ) (array : List Int)
    (outcome : ProcOutcome) (env : PollEnv) (s : NetState) (c c' : Int) :
    (normalizeActive numClients array ≠ [] → outcome.returncode ≠ 0 →
      sendRequest numClients simTime array outcome =
        .runError outcome.stdoutText outcome.stderrText) ∧
    readAsyncResponse simTime ⟨env.now, some c, env.parsed⟩ s =
      readAsyncResponse simTime ⟨env.now, some c', env.parsed⟩ s := by
  constructor
  · intro hne hrc
    simp [sendRequest, hrc, List.isEmpty_iff, hne]
  · simp [readAsyncResponse]

/-- Counterexample for C3 as stated: the process exited with status 1
before the deadline, and the poll delivers a data record built from the
parsed output instead of reporting an error. -/
theorem c3_counterexample :
    readAsyncResponse 1 ⟨0, some 1, some [⟨some 0, some 100, some 1, none, none⟩]⟩
      ⟨some (), [3], [], some 100⟩ =
      (.record (3, ⟨0, 1, 100⟩), ⟨none, [3], [], some 100⟩) := by
  simp [readAsyncResponse, serveQueue, normalRecords, resultsLookup, Entry.getId,
    Entry.truthy, entryAsyncMetric, extractTimes, Entry.getRx, pyThroughput, safeDiv,
    List.range_succ, List.filterMap_cons]

/-- Witness for C3: a synchronous run with exit status 1 on a non-empty
active set reports the run error with both captured streams. -/
theorem c3_witness :
    sendRequest 2 1 [5] ⟨1, "out", "err", none⟩ = .runError "out" "err" :=
  (c3_exit_status 2 1 [5] ⟨1, "out", "err", none⟩ ⟨0, none, none⟩ ⟨none, [], [], none⟩
    0 0).1 (by decide) (by decide)

/-! Claim C4. -/

/-- Keys after a dict insert: unchanged when the key was present,
appended at the end otherwise. -/
lemma dictKeys_dictInsert (k : Int) (v : SyncMetric) (l : List (Int × SyncMetric)) :
    dictKeys (dictInsert k v l) =
      if k ∈ dictKeys l then dictKeys l else dictKeys l ++ [k] := by
  induction l with
  | nil => simp [dictInsert, dictKeys]
  | cons p rest ih =>
    obtain ⟨k', v'⟩ := p
    by_cases hk : k' = k
    · subst hk
      simp [dictInsert, dictKeys]
    · rw [show dictInsert k v ((k', v') :: rest) = (k', v') :: dictInsert k v rest by
        simp [dictInsert, hk]]
      simp only [dictKeys, List.map_cons, List.mem_cons] at ih ⊢
      rw [ih]
      by_cases hmem : k ∈ List.map Prod.fst rest
      · rw [if_pos hmem, if_pos (Or.inr hmem)]
      · rw [if_neg hmem, if_neg (by
          rintro (h | h)
          · exact hk h.symm
          · exact hmem h)]
        simp

/-- An in-range getD lookup is a member of the list. -/
lemma getD_mem_of_lt : ∀ (l : List Int) (i : Nat), i < l.length → ∀ d, l.getD i d ∈ l := by
  intro l
  induction l with
  | nil => intro i h; simp at h
  | cons a t ih =>
    intro i h d
    cases i with
    | zero => simp [List.getD_cons_zero]
    | succ n =>
      rw [List.getD_cons_succ]
      exact List.mem_cons_of_mem a (ih n (by simpa using h) d)

/-- The sync result-building fold keeps keys distinct and inside the
active-id list, for any starting accumulator with that property. -/
lemma buildSyncOut_fold_keys (simTime : ℚ) (activeIds : List Int) :
    ∀ (entries : List Entry) (acc : List (Int × SyncMetric)),
      (dictKeys acc).Nodup → (∀ k ∈ dictKeys acc, k ∈ activeIds) →
      (dictKeys (entries.foldl
        (fun out e =>
          if 0 ≤ e.getId ∧ e.getId < (activeIds.length : Int) then
            dictInsert (activeIds.getD e.getId.toNat 0) (entrySyncMetric simTime e) out
          else out) acc)).Nodup ∧
      ∀ k ∈ dictKeys (entries.foldl
        (fun out e =>
          if 0 ≤ e.getId ∧ e.getId < (activeIds.length : Int) then
            dictInsert (activeIds.getD e.getId.toNat 0) (entrySyncMetric simTime e) out
          else out) acc), k ∈ activeIds := by
  intro entries
  induction entries with
  | nil => intro acc h1 h2; exact ⟨h1, h2⟩
  | cons e es ih =>
    intro acc h1 h2
    rw [List.foldl_cons]
    by_cases hg : 0 ≤ e.getId ∧ e.getId < (activeIds.length : Int)
    · rw [if_pos hg]
      have hmemk : activeIds.getD e.getId.toNat 0 ∈ activeIds := by
        refine getD_mem_of_lt activeIds e.getId.toNat ?_ 0
        omega
      refine ih (dictInsert (activeIds.getD e.getId.toNat 0) (entrySyncMetric simTime e) acc)
        ?_ ?_
      · rw [dictKeys_dictInsert]
        split
        · exact h1
        · rename_i hnot
          simp only [List.nodup_append, List.nodup_cons, List.nodup_nil]
          exact ⟨h1, by simp, by simpa [List.disjoint_singleton] using hnot⟩
      · intro k hk
        rw [dictKeys_dictInsert] at hk
        split at hk
        · exact h2 k hk
        · rcases List.mem_append.mp hk with hk | hk
          · exact h2 k hk
          · simp only [List.mem_singleton] at hk
            subst hk
            exact hmemk
    · rw [if_neg hg]
      exact ih acc h1 h2

/-- C4 (corrected): for every successful sendRequest, the result has at
most one metric per logical id (its keys are distinct) and every key
belongs to the requested active set; a requested id whose local index is
unreported by the simulator gets no metric, so "exactly one per
requested id" does not hold (the claim coexists with its own example in
which client 7 is absent). -/
theorem c4_sync_keys (numClients : Nat) (simTime : ℚ) (array : List Int)
    (outcome : ProcOutcome) (out : List (Int × SyncMetric))
    (h : sendRequest numClients simTime array outcome = .ok out) :
    (dictKeys out).Nodup ∧ ∀ k ∈ dictKeys out, k ∈ normalizeActive numClients array := by
  simp only [sendRequest] at h
  split at h
  · simp at h
  · split at h
    · simp at h
    · cases hpar : outcome.parsed with
      | none => rw [hpar] at h; simp at h
      | some entries =>
        rw [hpar] at h
        simp only [SyncOutcome.ok.injEq] at h
        subst h
        exact buildSyncOut_fold_keys simTime (normalizeActive numClients array) entries []
          (by simp [dictKeys]) (by simp [dictKeys])

/-- Counterexample for C4 as stated, the example of the spec itself:
active set [3, 7, 9], simulator reports local ids 0 and 2 only; the
result holds metrics for 3 and 9 but none for the requested id 7. -/
theorem c4_counterexample :
    sendRequest 10 (4/5) [3, 7, 9] ⟨0, "", "",
        some [⟨some 0, some 1000, some (1/2), none, none⟩,
          ⟨some 2, some 2000, some 1, none, none⟩]⟩ =
      .ok [(3, ⟨1/2, 2000⟩), (9, ⟨1, 2000⟩)] ∧
    (7 : Int) ∈ normalizeActive 10 [3, 7, 9] ∧
    (7 : Int) ∉ dictKeys [(3, (⟨1/2, 2000⟩ : SyncMetric)), (9, ⟨1, 2000⟩)] := by
  refine ⟨?_, by decide, by simp [dictKeys]⟩
  simp [sendRequest, normalizeActive, isBitmap, buildSyncOut, dictInsert, entrySyncMetric,
    extractTimes, Entry.getId, Entry.getRx, pyThroughput, safeDiv]
  norm_num

/-- Witness for C4 applied at the same concrete run: the produced keys
are distinct and the key 3 is in the requested set. -/
theorem c4_witness :
    (dictKeys [(3, (⟨1/2, 2000⟩ : SyncMetric)), (9, ⟨1, 2000⟩)]).Nodup ∧
    (3 : Int) ∈ normalizeActive 10 [3, 7, 9] := by
  have h := c4_sync_keys 10 (4/5) [3, 7, 9] ⟨0, "", "",
      some [⟨some 0, some 1000, some (1/2), none, none⟩,
        ⟨some 2, some 2000, some 1, none, none⟩]⟩
    [(3, ⟨1/2, 2000⟩), (9, ⟨1, 2000⟩)]
    (by
      simp [sendRequest, normalizeActive, isBitmap, buildSyncOut, dictInsert,
        entrySyncMetric, extractTimes, Entry.getId, Entry.getRx, pyThroughput, safeDiv]
      norm_num)
  exact ⟨h.1, h.2 3 (by simp [dictKeys])⟩

/-! Claim C6. -/

/-- Enumerating the membership bitmap of a strictly ascending id list
over the index window starting at k recovers exactly that list. -/
lemma enumFilterIds_bitmap_seg :
    ∀ (m k : Nat) (ids : List Int),
      ids.Pairwise (· < ·) →
      (∀ x ∈ ids, (k : Int) ≤ x ∧ x < (k : Int) + (m : Int)) →
      enumFilterIds k ((List.range' k m).map
        (fun (i : Nat) => if (i : Int) ∈ ids then 1 else 0)) = ids := by
  intro m
  induction m with
  | zero =>
    intro k ids _ hb
    have hnil : ids = [] := by
      cases ids with
      | nil => rfl
      | cons a t =>
        have := hb a (by simp)
        omega
    subst hnil
    rfl
  | succ n ih =>
    intro k ids hs hb
    rw [List.range'_succ k n 1, List.map_cons]
    by_cases hk : (k : Int) ∈ ids
    · obtain ⟨a, t, rfl⟩ : ∃ a t, ids = a :: t := by
        cases ids with
        | nil => simp at hk
        | cons a t => exact ⟨a, t, rfl⟩
      have hak : a = (k : Int) := by
        rcases List.mem_cons.mp hk with h | h
        · exact h.symm
        · have h1 := (List.pairwise_cons.mp hs).1 _ h
          have h2 := (hb a (by simp)).1
          omega
      subst hak
      rw [show (if ((k : Nat) : Int) ∈ (k : Int) :: t then (1 : Int) else 0) = 1 by
        simp]
      have hflag : ((1 : Int) != 0) = true := by decide
      simp only [enumFilterIds, hflag, if_true]
      congr 1
      rw [List.map_congr_left (fun i hi => by
        have hge : k + 1 ≤ i := (List.mem_range'_1.mp hi).1
        have hne : (i : Int) ≠ (k : Int) := by
          intro hcontra
          omega
        show (if (i : Int) ∈ (k : Int) :: t then (1 : Int) else 0) =
          (if (i : Int) ∈ t then (1 : Int) else 0)
        simp [List.mem_cons, hne])]
      refine ih (k + 1) t (List.pairwise_cons.mp hs).2 ?_
      intro x hx
      have h1 := (List.pairwise_cons.mp hs).1 x hx
      have h2 := hb x (by simp [hx])
      push_cast
      push_cast at h2
      omega
    · rw [show (if ((k : Nat) : Int) ∈ ids then (1 : Int) else 0) = 0 by simp [hk]]
      have hflag : ((0 : Int) != 0) = false := by decide
      simp only [enumFilterIds, hflag, if_false]
      refine ih (k + 1) ids hs ?_
      intro x hx
      have h1 := hb x hx
      have hne : x ≠ (k : Int) := by
        intro hcontra
        exact hk (hcontra ▸ hx)
      push_cast
      push_cast at h1
      omega

/-- The bitmap presentation of any id list is recognized as a bitmap. -/
lemma isBitmap_bitmapOf (numClients : Nat) (ids : List Int) :
    isBitmap numClients (bitmapOf numClients ids) = true := by
  simp only [isBitmap, bitmapOf, Bool.and_eq_true, beq_iff_eq, List.length_map,
    List.length_range, List.all_eq_true]
  refine ⟨trivial, ?_⟩
  intro x hx
  rcases List.mem_map.mp hx with ⟨i, _, rfl⟩
  by_cases hm : (i : Int) ∈ ids <;> simp [hm]

/-- C6 (corrected): for an active set given as a strictly ascending list
of in-range ids, the bitmap presentation and the list presentation
normalize to the same ordered sequence, provided the list presentation
is not itself shaped like a bitmap; when the list is bitmap-shaped
(length equal to the total client count with all elements 0 or 1) the
code reads it as a bitmap and the two presentations can disagree (see
the counterexample). -/
theorem c6_bitmap_list_agree (numClients : Nat) (ids : List Int)
    (hs : ids.Pairwise (· < ·))
    (hb : ∀ x ∈ ids, 0 ≤ x ∧ x < (numClients : Int))
    (hnb : isBitmap numClients ids = false) :
    normalizeActive numClients ids = ids ∧
    normalizeActive numClients (bitmapOf numClients ids) = ids := by
  constructor
  · simp [normalizeActive, hnb]
  · rw [normalizeActive, if_pos (isBitmap_bitmapOf numClients ids)]
    rw [show bitmapOf numClients ids = (List.range' 0 numClients).map
      (fun (i : Nat) => if (i : Int) ∈ ids then 1 else 0) by
        rw [bitmapOf, List.range_eq_range' numClients]]
    refine enumFilterIds_bitmap_seg numClients 0 ids hs ?_
    intro x hx
    have := hb x hx
    push_cast
    omega

/-- Witness for C6: the active set with ids 1 and 3 among four clients,
where the list [1, 3] is not bitmap-shaped; both presentations
normalize to [1, 3]. -/
theorem c6_witness :
    normalizeActive 4 [1, 3] = [1, 3] ∧
    normalizeActive 4 (bitmapOf 4 [1, 3]) = [1, 3] :=
  c6_bitmap_list_agree 4 [1, 3] (by decide) (by decide) (by decide)

/-- Counterexample for C6 as stated: with one total client and the
active set containing id 0, the bitmap presentation [1] normalizes to
[0] but the explicit list presentation [0] is itself bitmap-shaped and
normalizes to the empty sequence. -/
theorem c6_counterexample :
    normalizeActive 1 [1] = [0] ∧ normalizeActive 1 [0] = ([] : List Int) := by
  decide

/-! Claim C1. -/

/-- C1 (corrected): draining after a timeout yields exactly one data
record per stored active id before the end sentinel; draining after a
normal exit yields exactly the records built from the reported local
indices (unreported clients are skipped), which can be fewer than the
active-set size (see the counterexample). -/
theorem c1_drain_counts (simTime now d : ℚ) (parsed : Option (List Entry))
    (entries : List Entry) (s : NetState) (u : Unit) (c : Int)
    (hp : s.proc = some u) (hq : s.asyncQueue = []) (hd : s.deadline = some d) :
    (now > d →
      drainFrom simTime ⟨now, none, parsed⟩ s (s.asyncIds.length + 1) =
        (timeoutRecords simTime s.asyncIds (parsed.getD [])).map PollResult.record ++
          [PollResult.endSentinel] ∧
      (timeoutRecords simTime s.asyncIds (parsed.getD [])).length =
        s.asyncIds.length) ∧
    drainFrom simTime ⟨now, some c, some entries⟩ s
        ((normalRecords simTime s.asyncIds entries).length + 1) =
      (normalRecords simTime s.asyncIds entries).map PollResult.record ++
        [PollResult.endSentinel] := by
  constructor
  · intro hn
    have hlen := timeoutRecords_length simTime s.asyncIds (parsed.getD [])
    have hstep := readAsync_timeout simTime ⟨now, none, parsed⟩ s u d hp rfl hd hn
    rw [hq, List.nil_append] at hstep
    refine ⟨?_, hlen⟩
    rw [← hlen]
    exact drain_build_step simTime ⟨now, none, parsed⟩ s
      (timeoutRecords simTime s.asyncIds (parsed.getD [])) hstep
  · have hstep := readAsync_normal simTime ⟨now, some c, some entries⟩ s u c entries
      hp rfl rfl
    rw [hq, List.nil_append] at hstep
    exact drain_build_step simTime ⟨now, some c, some entries⟩ s
      (normalRecords simTime s.asyncIds entries) hstep

/-- Witness for C1 applied at a one-client round: the timeout drain
yields the one synthesized record then the sentinel, and the normal
drain over an empty report yields the sentinel alone. -/
theorem c1_witness :
    drainFrom 1 ⟨2, none, none⟩ ⟨some (), [4], [], some 1⟩ 2 =
      [PollResult.record (4, ⟨0, 1, 0⟩), PollResult.endSentinel] ∧
    drainFrom 1 ⟨2, some 0, some []⟩ ⟨some (), [4], [], some 1⟩ 1 =
      [PollResult.endSentinel] := by
  have h := c1_drain_counts 1 2 1 none [] ⟨some (), [4], [], some 1⟩ () 0 rfl rfl rfl
  have h1 := (h.1 (by norm_num)).1
  have h2 := h.2
  have hr1 : List.range 1 = [0] := by decide
  constructor
  · rw [show drainFrom 1 ⟨2, none, none⟩ ⟨some (), [4], [], some 1⟩ 2 =
      (timeoutRecords 1 [4] []).map PollResult.record ++ [PollResult.endSentinel] from h1]
    simp [timeoutRecords, resultsLookup, synthMetric, hr1]
  · rw [show drainFrom 1 ⟨2, some 0, some []⟩ ⟨some (), [4], [], some 1⟩ 1 =
      (normalRecords 1 [4] []).map PollResult.record ++ [PollResult.endSentinel] from h2]
    simp [normalRecords, resultsLookup, hr1]

/-- Counterexample for C1 as stated: a normal-exit completion with three
active clients but only local ids 0 and 2 reported drains to two data
records before the sentinel, not three. -/
theorem c1_counterexample :
    drainFrom (4/5) ⟨0, some 0, some [⟨some 0, some 1000, some (1/2), none, none⟩,
        ⟨some 2, some 2000, some 1, none, none⟩]⟩
      ⟨some (), [3, 7, 9], [], some 100⟩ 3 =
      [PollResult.record (3, ⟨0, 1/2, 2000⟩), PollResult.record (9, ⟨0, 1, 2000⟩),
        PollResult.endSentinel] ∧
    ([3, 7, 9] : List Int).length = 3 := by
  have hrange : List.range 3 = [0, 1, 2] := by decide
  have hbuilt : normalRecords (4/5) [3, 7, 9]
      [⟨some 0, some 1000, some (1/2), none, none⟩,
        ⟨some 2, some 2000, some 1, none, none⟩] =
      [(3, ⟨0, 1/2, 2000⟩), (9, ⟨0, 1, 2000⟩)] := by
    simp [normalRecords, resultsLookup, Entry.getId, Entry.truthy, entryAsyncMetric,
      extractTimes, Entry.getRx, pyThroughput, safeDiv, hrange, List.filterMap_cons]
    norm_num
  have hstep : readAsyncResponse (4/5) ⟨0, some 0,
      some [⟨some 0, some 1000, some (1/2), none, none⟩,
        ⟨some 2, some 2000, some 1, none, none⟩]⟩
      ⟨some (), [3, 7, 9], [], some 100⟩ =
      serveQueue ⟨none, [3, 7, 9],
        normalRecords (4/5) [3, 7, 9]
          [⟨some 0, some 1000, some (1/2), none, none⟩,
            ⟨some 2, some 2000, some 1, none, none⟩], some 100⟩ :=
    readAsync_normal (4/5) ⟨0, some 0,
        some [⟨some 0, some 1000, some (1/2), none, none⟩,
          ⟨some 2, some 2000, some 1, none, none⟩]⟩
      ⟨some (), [3, 7, 9], [], some 100⟩ () 0
      [⟨some 0, some 1000, some (1/2), none, none⟩,
        ⟨some 2, some 2000, some 1, none, none⟩] rfl rfl rfl
  have hd := drain_build_step (4/5) ⟨0, some 0,
      some [⟨some 0, some 1000, some (1/2), none, none⟩,
        ⟨some 2, some 2000, some 1, none, none⟩]⟩
    ⟨some (), [3, 7, 9], [], some 100⟩
    (normalRecords (4/5) [3, 7, 9]
      [⟨some 0, some 1000, some (1/2), none, none⟩,
        ⟨some 2, some 2000, some 1, none, none⟩]) hstep
  rw [hbuilt] at hd
  exact ⟨by simpa using hd, rfl⟩
